import Mathlib

/- Shallow embedding of src/crypto-data-server.py (the crypto cache server).

   Modelling conventions:
   - Time is a Nat count of seconds, the value of time.time().  Within a
     single fetch invocation the clock is held fixed; backoff sleeps are
     recorded as a list of durations instead of advancing the clock.
   - Numeric JSON values are Int (no claim depends on float arithmetic).
   - The MongoDB current_prices collection is a symbol-keyed list of
     records; Bool oracles stand for whether a given MongoDB operation
     succeeds or raises, and whether the API key is configured.
   - The upstream (requests.get against CoinMarketCap) is a function from
     the attempt index to the observed response. -/

namespace CryptoServer

/-- A numeric JSON field value: an explicit null or a number. -/
inductive JNum where
  | null
  | num (v : Int)
deriving DecidableEq, Repr

/-- One tracked-symbol record in the server's standard format: the dict
    built inside process_crypto_data. -/
structure PriceRecord where
  symbol : String
  cmc_id : Option Int
  name : String
  price : Int
  change_percent_24h : Int
  volume : Int
  market_cap : Int
  timestamp : Nat
  last_updated : Option String
deriving DecidableEq, Repr

/-- The quote.USD object of one coin in the upstream response.  A field is
    `none` when the key is absent and `some JNum.null` when the key is
    present holding JSON null. -/
structure USDQuote where
  price : Option JNum
  market_cap : Option JNum
  volume_24h : Option JNum
  percent_change_24h : Option JNum
deriving DecidableEq, Repr

/-- One coin entry of the upstream response body.  `quote = none` models a
    missing or empty quote.USD object, which is falsy in the
    `if not quote` check. -/
structure CoinData where
  id : Option Int
  name : Option String
  quote : Option USDQuote
  last_updated : Option String
deriving DecidableEq, Repr

/-- The module-level mutable state of the server: the in-memory cache dict,
    the MongoDB current_prices collection, and the two global timestamps. -/
structure ServerState where
  crypto_cache : List (String × PriceRecord)
  mongo_current : List PriceRecord
  last_cache_update : Nat
  rate_limit_until : Nat
deriving DecidableEq, Repr

/-- Cache settings from the configuration block (defaults). -/
def CACHE_DURATION : Nat := 300

def RATE_LIMIT_COOLDOWN : Nat := 300

def RETRY_ATTEMPTS : Nat := 5

def MAX_BACKOFF_TIME : Nat := 30

/-- Top cryptocurrencies to track. -/
def CRYPTO_SYMBOLS : List String :=
  ["BTC", "ETH", "XRP", "DOGE", "SOL", "ADA", "DOT", "MATIC", "LINK", "AVAX"]

/-- Map of symbols to full names. -/
def CRYPTO_NAME_MAP : List (String × String) :=
  [("BTC", "Bitcoin"), ("ETH", "Ethereum"), ("XRP", "XRP"),
   ("DOGE", "Dogecoin"), ("SOL", "Solana"), ("ADA", "Cardano"),
   ("DOT", "Polkadot"), ("MATIC", "Polygon"), ("LINK", "Chainlink"),
   ("AVAX", "Avalanche")]

/-- Lookup in a string-keyed association list (Python dict lookup). -/
def lookupAL {β : Type} : List (String × β) → String → Option β
  | [], _ => none
  | (k, v) :: rest, k0 => if k = k0 then some v else lookupAL rest k0

/-- Python dict assignment d[k] = v: replace in place when the key exists,
    else append at the end. -/
def upsertAL {β : Type} : List (String × β) → String → β → List (String × β)
  | [], k, v => [(k, v)]
  | (k1, v1) :: rest, k, v =>
    if k1 = k then (k, v) :: rest else (k1, v1) :: upsertAL rest k v

/-- MongoDB update_one with filter on symbol and upsert=True: replace the
    row with the same symbol, else insert. -/
def upsertMongo : List PriceRecord → PriceRecord → List PriceRecord
  | [], r => [r]
  | x :: rest, r =>
    if x.symbol = r.symbol then r :: rest else x :: upsertMongo rest r

/-- Python float(x) if x is not None else 0, applied to quote.get(key):
    both an absent key and a JSON null come out of .get as None, hence 0. -/
def numOrZero : Option JNum → Int
  | none => 0
  | some .null => 0
  | some (.num v) => v

/-- The standard-format record built in process_crypto_data for one coin. -/
def mkRecord (now : Nat) (symbol : String) (cd : CoinData) (q : USDQuote) :
    PriceRecord :=
  { symbol := symbol
    cmc_id := cd.id
    name := cd.name.getD ((lookupAL CRYPTO_NAME_MAP symbol).getD symbol)
    price := numOrZero q.price
    change_percent_24h := numOrZero q.percent_change_24h
    volume := numOrZero q.volume_24h
    market_cap := numOrZero q.market_cap
    timestamp := now
    last_updated := cd.last_updated }

/-- One iteration of the loop in process_crypto_data: skip untracked
    symbols, skip a missing/empty quote, skip a quote without the price
    key; otherwise build the record, attempt the MongoDB mirror write
    (its failure is caught and changes nothing), and update the memory
    cache.  mirrorOk tells whether the mirror write for a symbol succeeds. -/
def processOne (useMongo : Bool) (mirrorOk : String → Bool) (now : Nat)
    (acc : List PriceRecord × ServerState) (entry : String × CoinData) :
    List PriceRecord × ServerState :=
  let recs := acc.1
  let s := acc.2
  let symbol := entry.1
  let cd := entry.2
  if symbol ∈ CRYPTO_SYMBOLS then
    match cd.quote with
    | none => (recs, s)
    | some q =>
      match q.price with
      | none => (recs, s)
      | some _ =>
        let r := mkRecord now symbol cd q
        let s1 := if useMongo ∧ mirrorOk symbol then
            { s with mongo_current := upsertMongo s.mongo_current r }
          else s
        (recs ++ [r], { s1 with crypto_cache := upsertAL s1.crypto_cache symbol r })
  else (recs, s)

/-- process_crypto_data: fold the per-coin loop over the response items,
    then unconditionally set last_cache_update to now, and return the list
    of processed records. -/
def process_crypto_data (useMongo : Bool) (mirrorOk : String → Bool)
    (now : Nat) (data : List (String × CoinData)) (s : ServerState) :
    List PriceRecord × ServerState :=
  let out := data.foldl (processOne useMongo mirrorOk now) ([], s)
  (out.1, { out.2 with last_cache_update := now })

/-- The outcome of one upstream network call, as the code distinguishes
    them: HTTP 429 with an optional integer Retry-After header; any
    raised requests exception or non-2xx status (a transient error); a
    2xx body whose status envelope or data key is bad (the code returns
    None at once); or a good body. -/
inductive UpstreamResp where
  | rateLimited (retryAfter : Option Nat)
  | transientError
  | apiError
  | ok (data : List (String × CoinData))

/-- The observable outcome of one fetch_crypto_data invocation: the
    returned value, the state afterwards, how many upstream network calls
    were made, and the backoff sleeps performed, in order. -/
structure FetchResult where
  result : Option (List PriceRecord)
  state : ServerState
  netCalls : Nat
  sleeps : List Nat
deriving Repr

/-- The backoff slept before retry attempt `attempt`:
    min(2 + 2 ** attempt, MAX_BACKOFF_TIME). -/
def backoff (attempt : Nat) : Nat := min (2 + 2 ^ attempt) MAX_BACKOFF_TIME

/-- The `for attempt in range(RETRY_ATTEMPTS)` loop of fetch_crypto_data,
    structurally recursive on the remaining attempts.  On 429 it sets
    rate_limit_until = now + Retry-After (default RATE_LIMIT_COOLDOWN) and
    continues; on a transient error it continues; on an API-level error it
    returns None at once; on success it processes the data. -/
def fetchLoop (upstream : Nat → UpstreamResp) (useMongo : Bool)
    (mirrorOk : String → Bool) (now : Nat) :
    Nat → Nat → ServerState → Nat → List Nat → FetchResult
  | 0, _, s, calls, sleeps => ⟨none, s, calls, sleeps⟩
  | r + 1, attempt, s, calls, sleeps =>
    let sleeps1 := if 0 < attempt then sleeps ++ [backoff attempt] else sleeps
    match upstream attempt with
    | .rateLimited ra =>
        fetchLoop upstream useMongo mirrorOk now r (attempt + 1)
          { s with rate_limit_until := now + ra.getD RATE_LIMIT_COOLDOWN }
          (calls + 1) sleeps1
    | .transientError =>
        fetchLoop upstream useMongo mirrorOk now r (attempt + 1) s
          (calls + 1) sleeps1
    | .apiError => ⟨none, s, calls + 1, sleeps1⟩
    | .ok data =>
        let pr := process_crypto_data useMongo mirrorOk now data s
        ⟨some pr.1, pr.2, calls + 1, sleeps1⟩

/-- fetch_crypto_data: abort with None and zero network calls while the
    rate-limit cooldown is active or the API key is missing, else run the
    retry loop. -/
def fetch_crypto_data (upstream : Nat → UpstreamResp) (useMongo : Bool)
    (mirrorOk : String → Bool) (apiKey : Bool) (now : Nat)
    (s : ServerState) : FetchResult :=
  if now < s.rate_limit_until then ⟨none, s, 0, []⟩
  else if apiKey then fetchLoop upstream useMongo mirrorOk now RETRY_ATTEMPTS 0 s 0 []
  else ⟨none, s, 0, []⟩

/-- restore_from_mongodb: load the mirror rows of the last hour; if any,
    put each row with a truthy symbol into the memory cache, set
    last_cache_update = now and return true; on no rows, a disabled
    mirror, or a query failure return false with the state unchanged. -/
def restore_from_mongodb (useMongo queryOk : Bool) (now : Nat)
    (s : ServerState) : Bool × ServerState :=
  if useMongo then
    if queryOk then
      let records := s.mongo_current.filter (fun r => now - 3600 ≤ r.timestamp)
      if records = [] then (false, s)
      else
        let cache := records.foldl
          (fun c r => if r.symbol ≠ "" then upsertAL c r.symbol r else c)
          s.crypto_cache
        (true, { s with crypto_cache := cache, last_cache_update := now })
    else (false, s)
  else (false, s)

/-- The observable outcome of one refresh_cache invocation: the returned
    Bool, the state afterwards, the upstream network calls made, and how
    many times fetch_crypto_data was invoked (0 or 1). -/
structure RefreshResult where
  ok : Bool
  state : ServerState
  netCalls : Nat
  fetchCalls : Nat
deriving Repr

/-- refresh_cache: no-op while now - last_cache_update < CACHE_DURATION,
    else try the MongoDB restore, else invoke fetch_crypto_data and report
    whether it returned a (possibly empty) result. -/
def refresh_cache (upstream : Nat → UpstreamResp) (useMongo queryOk : Bool)
    (mirrorOk : String → Bool) (apiKey : Bool) (now : Nat)
    (s : ServerState) : RefreshResult :=
  if now - s.last_cache_update < CACHE_DURATION then ⟨true, s, 0, 0⟩
  else
    let rr := restore_from_mongodb useMongo queryOk now s
    if useMongo ∧ rr.1 then ⟨true, rr.2, 0, 0⟩
    else
      let fr := fetch_crypto_data upstream useMongo mirrorOk apiKey now rr.2
      ⟨fr.result.isSome, fr.state, fr.netCalls, 1⟩

/-- A response body, as far as the claims need to distinguish them. -/
inductive Body where
  | records (rs : List PriceRecord)
  | record (r : PriceRecord)
  | error (msg : String)
  | errorRetry (msg : String) (retryAfter : Nat)
deriving DecidableEq, Repr

/-- An HTTP response: status code and JSON body. -/
structure Response where
  status : Nat
  body : Body
deriving DecidableEq, Repr

/-- The handler for GET /api/prices and /api/crypto: recent MongoDB rows
    first (last 30 minutes), else the memory cache, else 429 with the
    remaining cooldown when rate limited, else 503. -/
def getAllCrypto (useMongo queryOk : Bool) (now : Nat) (s : ServerState) :
    Response :=
  let recent := s.mongo_current.filter (fun r => now - 1800 ≤ r.timestamp)
  if useMongo ∧ queryOk ∧ recent ≠ [] then ⟨200, .records recent⟩
  else if s.crypto_cache ≠ [] then
    ⟨200, .records (s.crypto_cache.map Prod.snd)⟩
  else if now < s.rate_limit_until then
    ⟨429, .errorRetry "Rate limited by CoinMarketCap API" (s.rate_limit_until - now)⟩
  else ⟨503, .error "No cryptocurrency data available"⟩

/-- Python str.upper() restricted to ASCII, written over String.data so
    that the kernel can evaluate it. -/
def pyUpper (s : String) : String := ⟨s.data.map Char.toUpper⟩

/-- The handler for GET /api/crypto/SYMBOL: 404 for an untracked symbol,
    else the MongoDB row for the symbol (any age), else the memory cache
    entry, else 404.  The rate-limit state is never consulted here. -/
def getSpecificCrypto (useMongo queryOk : Bool) (crypto_symbol : String)
    (s : ServerState) : Response :=
  let symU := pyUpper crypto_symbol
  if symU ∈ CRYPTO_SYMBOLS then
    match (if useMongo ∧ queryOk then
        s.mongo_current.find? (fun r => r.symbol = symU) else none) with
    | some r => ⟨200, .record r⟩
    | none =>
      match lookupAL s.crypto_cache symU with
      | some r => ⟨200, .record r⟩
      | none => ⟨404, .error ("No data available for " ++ symU)⟩
  else ⟨404, .error ("Unknown cryptocurrency: " ++ symU)⟩

/-- The invariant of the stores: every memory-cache key and every mirror
    row's symbol belongs to the fixed tracked set CRYPTO_SYMBOLS. -/
def trackedInv (s : ServerState) : Prop :=
  (∀ p ∈ s.crypto_cache, p.1 ∈ CRYPTO_SYMBOLS) ∧
  (∀ r ∈ s.mongo_current, r.symbol ∈ CRYPTO_SYMBOLS)

instance (s : ServerState) : Decidable (trackedInv s) := by
  unfold trackedInv; infer_instance

/- Concrete fixtures used by the counterexamples and witnesses. -/

/-- The state at process start: empty caches, both timestamps 0. -/
def sEmpty : ServerState := ⟨[], [], 0, 0⟩

/-- An upstream that answers HTTP 429 with no Retry-After header, always. -/
def alwaysRateLimited : Nat → UpstreamResp := fun _ => .rateLimited none

/-- An upstream that fails transiently on every call. -/
def alwaysTransient : Nat → UpstreamResp := fun _ => .transientError

/-- A durable mirror whose writes always succeed. -/
def mirrorAlwaysOk : String → Bool := fun _ => true

/-- A durable mirror whose writes always raise. -/
def mirrorAlwaysFails : String → Bool := fun _ => false

/-- A well-formed coin entry under a symbol outside CRYPTO_SYMBOLS. -/
def fooCoin : CoinData := ⟨none, none, some ⟨some (.num 5), none, none, none⟩, none⟩

/-- An upstream whose response contains only the untracked symbol FOO. -/
def upstreamFoo : Nat → UpstreamResp := fun _ => .ok [("FOO", fooCoin)]

/-- A BTC entry whose quote.USD.price key is present but holds null, and
    whose other numeric keys are absent. -/
def btcNullPrice : CoinData := ⟨some 1, some "Bitcoin", some ⟨some .null, none, none, none⟩, none⟩

/-- A BTC entry with a normal price and the other numeric keys absent. -/
def btcGood : CoinData := ⟨some 1, some "Bitcoin", some ⟨some (.num 50000), none, none, none⟩, none⟩

/-- An upstream that always succeeds with the single BTC entry. -/
def upstreamBtc : Nat → UpstreamResp := fun _ => .ok [("BTC", btcGood)]

/- ------------------------------------------------------------------ -/
/- Helper lemmas -/

theorem lookupAL_upsertAL_self {β : Type} (l : List (String × β)) (k : String)
    (v : β) : lookupAL (upsertAL l k v) k = some v := by
  induction l with
  | nil => simp [upsertAL, lookupAL]
  | cons hd t ih =>
    obtain ⟨k1, v1⟩ := hd
    by_cases hk : k1 = k
    · simp [upsertAL, hk, lookupAL]
    · simp [upsertAL, hk, lookupAL, ih]

theorem mem_upsertAL {β : Type} (l : List (String × β)) (k : String) (v : β)
    (p : String × β) (hp : p ∈ upsertAL l k v) : p ∈ l ∨ p = (k, v) := by
  induction l with
  | nil => simp [upsertAL] at hp; simp [hp]
  | cons hd t ih =>
    obtain ⟨k1, v1⟩ := hd
    by_cases hk : k1 = k
    · simp [upsertAL, hk] at hp
      rcases hp with h1 | h1
      · right; simp [h1]
      · left; simp [h1]
    · simp [upsertAL, hk] at hp
      rcases hp with h1 | h1
      · left; simp [h1]
      · rcases ih h1 with h2 | h2
        · left; simp [h2]
        · right; exact h2

theorem mem_upsertMongo (l : List PriceRecord) (r x : PriceRecord)
    (hx : x ∈ upsertMongo l r) : x ∈ l ∨ x = r := by
  induction l with
  | nil => simp [upsertMongo] at hx; simp [hx]
  | cons hd t ih =>
    by_cases hk : hd.symbol = r.symbol
    · simp [upsertMongo, hk] at hx
      rcases hx with h1 | h1
      · right; exact h1
      · left; simp [h1]
    · simp [upsertMongo, hk] at hx
      rcases hx with h1 | h1
      · left; simp [h1]
      · rcases ih h1 with h2 | h2
        · left; simp [h2]
        · right; exact h2

theorem fetchLoop_always_rateLimited (upstream : Nat → UpstreamResp)
    (um : Bool) (mk : String → Bool) (now : Nat) (ra : Option Nat)
    (h : ∀ k, upstream k = .rateLimited ra) (rem : Nat) :
    ∀ attempt s calls sleeps,
      (fetchLoop upstream um mk now rem attempt s calls sleeps).result = none ∧
      (fetchLoop upstream um mk now rem attempt s calls sleeps).netCalls = calls + rem ∧
      (fetchLoop upstream um mk now rem attempt s calls sleeps).state =
        (if rem = 0 then s
         else { s with rate_limit_until := now + ra.getD RATE_LIMIT_COOLDOWN }) := by
  induction rem with
  | zero => intro attempt s calls sleeps; exact ⟨rfl, rfl, rfl⟩
  | succ r ih =>
    intro attempt s calls sleeps
    simp only [fetchLoop, h]
    obtain ⟨h1, h2, h3⟩ := ih (attempt + 1)
      { s with rate_limit_until := now + ra.getD RATE_LIMIT_COOLDOWN }
      (calls + 1) (if 0 < attempt then sleeps ++ [backoff attempt] else sleeps)
    refine ⟨h1, by rw [h2]; omega, ?_⟩
    rw [h3]
    cases r <;> simp

theorem fetchLoop_always_transient (upstream : Nat → UpstreamResp)
    (um : Bool) (mk : String → Bool) (now : Nat)
    (h : ∀ k, upstream k = .transientError) (rem : Nat) :
    ∀ attempt s calls sleeps,
      fetchLoop upstream um mk now rem attempt s calls sleeps =
        ⟨none, s, calls + rem,
         sleeps ++ ((List.range' attempt rem).filter (fun a => decide (0 < a))).map backoff⟩ := by
  induction rem with
  | zero => intro attempt s calls sleeps; simp [fetchLoop]
  | succ r ih =>
    intro attempt s calls sleeps
    simp only [fetchLoop, h]
    rw [ih (attempt + 1)]
    rw [List.range'_succ]
    cases Nat.eq_zero_or_pos attempt with
    | inl h0 =>
      subst h0
      simp
      try omega
    | inr hpos =>
      simp [hpos, List.filter_cons, Nat.add_assoc]
      try omega

theorem fetchLoop_some_last (upstream : Nat → UpstreamResp) (um : Bool)
    (mk : String → Bool) (now : Nat) (rem : Nat) :
    ∀ attempt s calls sleeps,
      (fetchLoop upstream um mk now rem attempt s calls sleeps).result.isSome = true →
      (fetchLoop upstream um mk now rem attempt s calls sleeps).state.last_cache_update = now := by
  induction rem with
  | zero => intro attempt s calls sleeps hsome; simp [fetchLoop] at hsome
  | succ r ih =>
    intro attempt s calls sleeps hsome
    cases hu : upstream attempt with
    | rateLimited ra =>
      simp only [fetchLoop, hu] at hsome ⊢
      exact ih _ _ _ _ hsome
    | transientError =>
      simp only [fetchLoop, hu] at hsome ⊢
      exact ih _ _ _ _ hsome
    | apiError => simp only [fetchLoop, hu] at hsome; simp at hsome
    | ok data => simp only [fetchLoop, hu]; rfl

theorem fetchLoop_none_last (upstream : Nat → UpstreamResp) (um : Bool)
    (mk : String → Bool) (now : Nat) (rem : Nat) :
    ∀ attempt s calls sleeps,
      (fetchLoop upstream um mk now rem attempt s calls sleeps).result = none →
      (fetchLoop upstream um mk now rem attempt s calls sleeps).state.last_cache_update =
        s.last_cache_update := by
  induction rem with
  | zero => intro attempt s calls sleeps _; rfl
  | succ r ih =>
    intro attempt s calls sleeps hnone
    cases hu : upstream attempt with
    | rateLimited ra =>
      simp only [fetchLoop, hu] at hnone ⊢
      exact ih _ _ _ _ hnone
    | transientError =>
      simp only [fetchLoop, hu] at hnone ⊢
      exact ih _ _ _ _ hnone
    | apiError => simp only [fetchLoop, hu]
    | ok data => simp only [fetchLoop, hu] at hnone; simp at hnone

theorem restore_cases (um qk : Bool) (now : Nat) (s : ServerState) :
    restore_from_mongodb um qk now s = (false, s) ∨
    ((restore_from_mongodb um qk now s).1 = true ∧
     (restore_from_mongodb um qk now s).2.last_cache_update = now) := by
  unfold restore_from_mongodb
  split
  · split
    · simp only []
      split
      · left; rfl
      · right; exact ⟨rfl, rfl⟩
    · left; rfl
  · left; rfl

theorem restore_false_state (um qk : Bool) (now : Nat) (s : ServerState)
    (h : (restore_from_mongodb um qk now s).1 = false) :
    (restore_from_mongodb um qk now s).2 = s := by
  rcases restore_cases um qk now s with h1 | h1
  · rw [h1]
  · rw [h1.1] at h
    exact absurd h (by simp)

theorem restore_true_last (um qk : Bool) (now : Nat) (s : ServerState)
    (h : (restore_from_mongodb um qk now s).1 = true) :
    (restore_from_mongodb um qk now s).2.last_cache_update = now := by
  rcases restore_cases um qk now s with h1 | h1
  · rw [h1] at h
    exact absurd h (by simp)
  · exact h1.2

theorem refresh_fetchCalls_le_one (upstream : Nat → UpstreamResp)
    (um qk : Bool) (mk : String → Bool) (ak : Bool) (now : Nat)
    (s : ServerState) :
    (refresh_cache upstream um qk mk ak now s).fetchCalls ≤ 1 := by
  unfold refresh_cache
  split
  · exact Nat.zero_le 1
  · simp only []
    split
    · exact Nat.zero_le 1
    · exact Nat.le_refl 1

theorem refresh_fresh_noop (upstream : Nat → UpstreamResp) (um qk : Bool)
    (mk : String → Bool) (ak : Bool) (now : Nat) (s : ServerState)
    (h : now - s.last_cache_update < CACHE_DURATION) :
    refresh_cache upstream um qk mk ak now s = ⟨true, s, 0, 0⟩ := by
  unfold refresh_cache
  rw [if_pos h]

theorem refresh_restore_branch (upstream : Nat → UpstreamResp) (um qk : Bool)
    (mk : String → Bool) (ak : Bool) (now : Nat) (s : ServerState)
    (h1 : ¬ now - s.last_cache_update < CACHE_DURATION)
    (h2 : um = true ∧ (restore_from_mongodb um qk now s).1 = true) :
    refresh_cache upstream um qk mk ak now s =
      ⟨true, (restore_from_mongodb um qk now s).2, 0, 0⟩ := by
  unfold refresh_cache
  rw [if_neg h1]
  simp only []
  rw [if_pos h2]

theorem refresh_stale_fetch (upstream : Nat → UpstreamResp) (um qk : Bool)
    (mk : String → Bool) (ak : Bool) (now : Nat) (s : ServerState)
    (h1 : ¬ now - s.last_cache_update < CACHE_DURATION)
    (h2 : ¬ (um = true ∧ (restore_from_mongodb um qk now s).1 = true)) :
    refresh_cache upstream um qk mk ak now s =
      ⟨(fetch_crypto_data upstream um mk ak now (restore_from_mongodb um qk now s).2).result.isSome,
       (fetch_crypto_data upstream um mk ak now (restore_from_mongodb um qk now s).2).state,
       (fetch_crypto_data upstream um mk ak now (restore_from_mongodb um qk now s).2).netCalls, 1⟩ := by
  unfold refresh_cache
  rw [if_neg h1]
  simp only []
  rw [if_neg h2]

theorem fetch_some_last (upstream : Nat → UpstreamResp) (um : Bool)
    (mk : String → Bool) (ak : Bool) (now : Nat) (s : ServerState)
    (h : (fetch_crypto_data upstream um mk ak now s).result.isSome = true) :
    (fetch_crypto_data upstream um mk ak now s).state.last_cache_update = now := by
  revert h
  unfold fetch_crypto_data
  split
  · intro h; simp at h
  · split
    · exact fetchLoop_some_last upstream um mk now RETRY_ATTEMPTS 0 s 0 []
    · intro h; simp at h

theorem fetch_none_laststate (upstream : Nat → UpstreamResp) (um : Bool)
    (mk : String → Bool) (ak : Bool) (now : Nat) (s : ServerState)
    (h : (fetch_crypto_data upstream um mk ak now s).result = none) :
    (fetch_crypto_data upstream um mk ak now s).state.last_cache_update =
      s.last_cache_update := by
  revert h
  unfold fetch_crypto_data
  split
  · intro _; rfl
  · split
    · exact fetchLoop_none_last upstream um mk now RETRY_ATTEMPTS 0 s 0 []
    · intro _; rfl

theorem processOne_trackedInv (um : Bool) (mk : String → Bool) (now : Nat)
    (acc : List PriceRecord × ServerState) (e : String × CoinData)
    (h : trackedInv acc.2) : trackedInv (processOne um mk now acc e).2 := by
  obtain ⟨hc, hm⟩ := h
  unfold processOne
  simp only []
  split
  next hsym =>
    split
    · exact ⟨hc, hm⟩
    next q =>
      split
      · exact ⟨hc, hm⟩
      next j =>
        by_cases hmm : um = true ∧ mk e.1 = true
        · rw [if_pos hmm]
          constructor
          · intro p hp
            rcases mem_upsertAL _ _ _ p hp with hin | heq
            · exact hc p hin
            · rw [heq]
              exact hsym
          · intro x hx
            rcases mem_upsertMongo _ _ x hx with hin | heq
            · exact hm x hin
            · rw [heq]
              exact hsym
        · rw [if_neg hmm]
          constructor
          · intro p hp
            rcases mem_upsertAL _ _ _ p hp with hin | heq
            · exact hc p hin
            · rw [heq]
              exact hsym
          · exact hm
  next hsym => exact ⟨hc, hm⟩

theorem foldl_processOne_trackedInv (um : Bool) (mk : String → Bool)
    (now : Nat) (data : List (String × CoinData)) :
    ∀ acc, trackedInv acc.2 →
      trackedInv (data.foldl (processOne um mk now) acc).2 := by
  induction data with
  | nil => intro acc h; exact h
  | cons e t ih =>
    intro acc h
    rw [List.foldl_cons]
    exact ih _ (processOne_trackedInv um mk now acc e h)

theorem process_trackedInv (um : Bool) (mk : String → Bool) (now : Nat)
    (data : List (String × CoinData)) (s : ServerState) (h : trackedInv s) :
    trackedInv (process_crypto_data um mk now data s).2 := by
  have key := foldl_processOne_trackedInv um mk now data ([], s) h
  exact ⟨key.1, key.2⟩

theorem foldl_restore_upsert_tracked :
    ∀ (recs : List PriceRecord), (∀ r ∈ recs, r.symbol ∈ CRYPTO_SYMBOLS) →
    ∀ c : List (String × PriceRecord), (∀ p ∈ c, p.1 ∈ CRYPTO_SYMBOLS) →
    ∀ p ∈ recs.foldl
        (fun c r => if r.symbol ≠ "" then upsertAL c r.symbol r else c) c,
      p.1 ∈ CRYPTO_SYMBOLS := by
  intro recs
  induction recs with
  | nil => intro _ c hcinv p hp; exact hcinv p hp
  | cons r t ih =>
    intro hrecs c hcinv p hp
    rw [List.foldl_cons] at hp
    refine ih (fun r2 hr2 => hrecs r2 (List.mem_cons_of_mem _ hr2)) _ ?_ p hp
    intro p2 hp2
    by_cases hsym : r.symbol ≠ ""
    · rw [if_pos hsym] at hp2
      rcases mem_upsertAL _ _ _ p2 hp2 with hin | heq
      · exact hcinv p2 hin
      · rw [heq]
        exact hrecs r (List.mem_cons_self r t)
    · rw [if_neg hsym] at hp2
      exact hcinv p2 hp2

theorem restore_trackedInv (um qk : Bool) (now : Nat) (s : ServerState)
    (h : trackedInv s) : trackedInv (restore_from_mongodb um qk now s).2 := by
  obtain ⟨hc, hm⟩ := h
  unfold restore_from_mongodb
  split
  · split
    · simp only []
      split
      · exact ⟨hc, hm⟩
      · refine ⟨?_, hm⟩
        refine foldl_restore_upsert_tracked _ ?_ _ hc
        intro r hr
        exact hm r (List.mem_of_mem_filter hr)
    · exact ⟨hc, hm⟩
  · exact ⟨hc, hm⟩

theorem fetchLoop_trackedInv (upstream : Nat → UpstreamResp) (um : Bool)
    (mk : String → Bool) (now : Nat) (rem : Nat) :
    ∀ attempt s calls sleeps, trackedInv s →
      trackedInv (fetchLoop upstream um mk now rem attempt s calls sleeps).state := by
  induction rem with
  | zero => intro _ s _ _ h; exact h
  | succ r ih =>
    intro attempt s calls sleeps h
    cases hu : upstream attempt with
    | rateLimited ra =>
      simp only [fetchLoop, hu]
      exact ih _ _ _ _ ⟨h.1, h.2⟩
    | transientError =>
      simp only [fetchLoop, hu]
      exact ih _ _ _ _ h
    | apiError =>
      simp only [fetchLoop, hu]
      exact h
    | ok data =>
      simp only [fetchLoop, hu]
      exact process_trackedInv um mk now data s h

theorem fetch_trackedInv (upstream : Nat → UpstreamResp) (um : Bool)
    (mk : String → Bool) (ak : Bool) (now : Nat) (s : ServerState)
    (h : trackedInv s) :
    trackedInv (fetch_crypto_data upstream um mk ak now s).state := by
  unfold fetch_crypto_data
  split
  · exact h
  · split
    · exact fetchLoop_trackedInv upstream um mk now RETRY_ATTEMPTS 0 s 0 [] h
    · exact h

/- ------------------------------------------------------------------ -/
/- Claim theorems -/

/-- C2: a call to fetch_crypto_data made while the rate-limit cooldown
    deadline of a prior call is still in the future (now strictly before
    rate_limit_until) returns None immediately, performs zero upstream
    network calls, and leaves the state unchanged. -/
theorem C2_cooldown_returns_immediately (upstream : Nat → UpstreamResp)
    (um : Bool) (mk : String → Bool) (ak : Bool) (now : Nat) (s : ServerState)
    (h : now < s.rate_limit_until) :
    fetch_crypto_data upstream um mk ak now s = ⟨none, s, 0, []⟩ := by
  unfold fetch_crypto_data
  rw [if_pos h]

/-- Witness for C2 at a concrete cooldown state. -/
theorem C2_witness :
    fetch_crypto_data upstreamBtc false mirrorAlwaysOk true 10 ⟨[], [], 0, 100⟩ =
      ⟨none, ⟨[], [], 0, 100⟩, 0, []⟩ :=
  C2_cooldown_returns_immediately upstreamBtc false mirrorAlwaysOk true 10
    ⟨[], [], 0, 100⟩ (by decide)

/-- C1 counterexample: for a fetch that always returns RateLimited, a
    single refresh_cache call (stale cache, no cooldown yet) makes five
    upstream calls, not exactly one: the 429 branch continues the attempt
    loop instead of aborting it. -/
theorem C1_counterexample :
    (refresh_cache alwaysRateLimited false true mirrorAlwaysOk true 1000 sEmpty).netCalls = 5 ∧
    ¬ (refresh_cache alwaysRateLimited false true mirrorAlwaysOk true 1000 sEmpty).netCalls = 1 := by
  decide

/-- C1 (amended): on RateLimited the retry loop sets the global cooldown
    deadline to now plus the provider Retry-After (else default) but
    continues retrying; for a fetch that always returns RateLimited a
    single refresh makes exactly RETRY_ATTEMPTS upstream calls, returns
    false, and leaves the cooldown deadline set. -/
theorem C1_rate_limited_sets_cooldown_keeps_retrying
    (upstream : Nat → UpstreamResp) (qk : Bool) (mk : String → Bool)
    (now : Nat) (s : ServerState) (ra : Option Nat)
    (hstale : ¬ now - s.last_cache_update < CACHE_DURATION)
    (hcool : ¬ now < s.rate_limit_until)
    (h : ∀ k, upstream k = .rateLimited ra) :
    (refresh_cache upstream false qk mk true now s).ok = false ∧
    (refresh_cache upstream false qk mk true now s).netCalls = RETRY_ATTEMPTS ∧
    (refresh_cache upstream false qk mk true now s).state.rate_limit_until =
      now + ra.getD RATE_LIMIT_COOLDOWN := by
  have hfetch : fetch_crypto_data upstream false mk true now s =
      fetchLoop upstream false mk now RETRY_ATTEMPTS 0 s 0 [] := by
    unfold fetch_crypto_data
    rw [if_neg hcool, if_pos rfl]
  have hrefresh : refresh_cache upstream false qk mk true now s =
      ⟨(fetch_crypto_data upstream false mk true now s).result.isSome,
       (fetch_crypto_data upstream false mk true now s).state,
       (fetch_crypto_data upstream false mk true now s).netCalls, 1⟩ := by
    unfold refresh_cache
    rw [if_neg hstale]
    simp [restore_from_mongodb]
  obtain ⟨h1, h2, h3⟩ := fetchLoop_always_rateLimited upstream false mk now ra h
    RETRY_ATTEMPTS 0 s 0 []
  rw [hrefresh, hfetch]
  refine ⟨?_, ?_, ?_⟩
  · show (fetchLoop upstream false mk now RETRY_ATTEMPTS 0 s 0 []).result.isSome = false
    rw [h1]
    rfl
  · show (fetchLoop upstream false mk now RETRY_ATTEMPTS 0 s 0 []).netCalls = RETRY_ATTEMPTS
    rw [h2]
    exact Nat.zero_add RETRY_ATTEMPTS
  · show (fetchLoop upstream false mk now RETRY_ATTEMPTS 0 s 0 []).state.rate_limit_until =
      now + ra.getD RATE_LIMIT_COOLDOWN
    rw [h3]
    simp [RETRY_ATTEMPTS]

/-- Witness for C1's amended theorem at a concrete always-429 upstream. -/
theorem C1_witness :
    (refresh_cache alwaysRateLimited false true mirrorAlwaysOk true 1000 sEmpty).ok = false ∧
    (refresh_cache alwaysRateLimited false true mirrorAlwaysOk true 1000 sEmpty).netCalls = RETRY_ATTEMPTS ∧
    (refresh_cache alwaysRateLimited false true mirrorAlwaysOk true 1000 sEmpty).state.rate_limit_until =
      1000 + Option.getD none RATE_LIMIT_COOLDOWN :=
  C1_rate_limited_sets_cooldown_keeps_retrying alwaysRateLimited true
    mirrorAlwaysOk 1000 sEmpty none (by decide) (by decide) (fun _ => rfl)

/-- C9: for a fetch that always fails transiently, the retry loop makes
    exactly RETRY_ATTEMPTS upstream calls, sleeps exactly
    min(2 + 2 ^ attempt, MAX_BACKOFF_TIME) before each retry attempt
    other than the first, and the total sleep is bounded by
    RETRY_ATTEMPTS * MAX_BACKOFF_TIME. -/
theorem C9_backoff_bound (upstream : Nat → UpstreamResp) (um : Bool)
    (mk : String → Bool) (now : Nat) (s : ServerState)
    (hcool : ¬ now < s.rate_limit_until)
    (h : ∀ k, upstream k = .transientError) :
    (fetch_crypto_data upstream um mk true now s).result = none ∧
    (fetch_crypto_data upstream um mk true now s).netCalls = RETRY_ATTEMPTS ∧
    (fetch_crypto_data upstream um mk true now s).sleeps =
      ((List.range RETRY_ATTEMPTS).drop 1).map backoff ∧
    (fetch_crypto_data upstream um mk true now s).sleeps.sum ≤
      RETRY_ATTEMPTS * MAX_BACKOFF_TIME := by
  have hfetch : fetch_crypto_data upstream um mk true now s =
      fetchLoop upstream um mk now RETRY_ATTEMPTS 0 s 0 [] := by
    unfold fetch_crypto_data
    rw [if_neg hcool, if_pos rfl]
  rw [hfetch, fetchLoop_always_transient upstream um mk now h RETRY_ATTEMPTS 0 s 0 []]
  refine ⟨rfl, ?_, ?_, ?_⟩
  · show (0 + RETRY_ATTEMPTS : Nat) = RETRY_ATTEMPTS
    decide
  · show [] ++ (((List.range' 0 RETRY_ATTEMPTS).filter (fun a => decide (0 < a))).map backoff) =
      ((List.range RETRY_ATTEMPTS).drop 1).map backoff
    decide
  · show ([] ++ (((List.range' 0 RETRY_ATTEMPTS).filter (fun a => decide (0 < a))).map backoff)).sum ≤
      RETRY_ATTEMPTS * MAX_BACKOFF_TIME
    decide

/-- C3 counterexample: with a fetch that always fails transiently, two
    refresh_cache calls one second apart (well within CACHE_DURATION) each
    invoke the upstream fetch routine, five network calls each, ten in
    total — not at most one upstream call: a failed fetch does not advance
    last_cache_update, so the second call is not a no-op. -/
theorem C3_counterexample :
    (refresh_cache alwaysTransient false true mirrorAlwaysOk true 1000 sEmpty).fetchCalls +
      (refresh_cache alwaysTransient false true mirrorAlwaysOk true 1001
        (refresh_cache alwaysTransient false true mirrorAlwaysOk true 1000 sEmpty).state).fetchCalls = 2 ∧
    (refresh_cache alwaysTransient false true mirrorAlwaysOk true 1000 sEmpty).netCalls +
      (refresh_cache alwaysTransient false true mirrorAlwaysOk true 1001
        (refresh_cache alwaysTransient false true mirrorAlwaysOk true 1000 sEmpty).state).netCalls = 10 ∧
    ¬ ((refresh_cache alwaysTransient false true mirrorAlwaysOk true 1000 sEmpty).fetchCalls +
        (refresh_cache alwaysTransient false true mirrorAlwaysOk true 1001
          (refresh_cache alwaysTransient false true mirrorAlwaysOk true 1000 sEmpty).state).fetchCalls ≤ 1) := by
  decide

/-- C3 (amended): a refresh_cache call made while
    now - last_cache_update < CACHE_DURATION returns true immediately,
    contacting no tier; and two refresh_cache calls within one
    CACHE_DURATION window invoke the upstream fetch routine at most once,
    provided the first call returns true. -/
theorem C3_fresh_noop_single_upstream_fetch (up1 up2 : Nat → UpstreamResp)
    (um qk1 qk2 : Bool) (mk1 mk2 : String → Bool) (ak : Bool)
    (now1 now2 : Nat) (s : ServerState)
    (_h12 : now1 ≤ now2) (hwin : now2 - now1 < CACHE_DURATION)
    (hok : (refresh_cache up1 um qk1 mk1 ak now1 s).ok = true) :
    (now1 - s.last_cache_update < CACHE_DURATION →
      refresh_cache up1 um qk1 mk1 ak now1 s = ⟨true, s, 0, 0⟩) ∧
    (refresh_cache up1 um qk1 mk1 ak now1 s).fetchCalls +
      (refresh_cache up2 um qk2 mk2 ak now2
        (refresh_cache up1 um qk1 mk1 ak now1 s).state).fetchCalls ≤ 1 := by
  refine ⟨fun hfresh => refresh_fresh_noop up1 um qk1 mk1 ak now1 s hfresh, ?_⟩
  have hB1 : (refresh_cache up2 um qk2 mk2 ak now2
      (refresh_cache up1 um qk1 mk1 ak now1 s).state).fetchCalls ≤ 1 :=
    refresh_fetchCalls_le_one up2 um qk2 mk2 ak now2 _
  have hA1 : (refresh_cache up1 um qk1 mk1 ak now1 s).fetchCalls ≤ 1 :=
    refresh_fetchCalls_le_one up1 um qk1 mk1 ak now1 s
  by_cases hfresh : now1 - s.last_cache_update < CACHE_DURATION
  · have hA0 : (refresh_cache up1 um qk1 mk1 ak now1 s).fetchCalls = 0 := by
      rw [refresh_fresh_noop up1 um qk1 mk1 ak now1 s hfresh]
    omega
  · by_cases hrest : um = true ∧ (restore_from_mongodb um qk1 now1 s).1 = true
    · have hA0 : (refresh_cache up1 um qk1 mk1 ak now1 s).fetchCalls = 0 := by
        rw [refresh_restore_branch up1 um qk1 mk1 ak now1 s hfresh hrest]
      omega
    · have heq := refresh_stale_fetch up1 um qk1 mk1 ak now1 s hfresh hrest
      have hokA : (fetch_crypto_data up1 um mk1 ak now1
          (restore_from_mongodb um qk1 now1 s).2).result.isSome = true := by
        rw [heq] at hok
        exact hok
      have hlast : (refresh_cache up1 um qk1 mk1 ak now1 s).state.last_cache_update = now1 := by
        rw [heq]
        exact fetch_some_last up1 um mk1 ak now1 _ hokA
      have hfresh2 : now2 -
          (refresh_cache up1 um qk1 mk1 ak now1 s).state.last_cache_update < CACHE_DURATION := by
        rw [hlast]
        omega
      have hB0 : (refresh_cache up2 um qk2 mk2 ak now2
          (refresh_cache up1 um qk1 mk1 ak now1 s).state).fetchCalls = 0 := by
        rw [refresh_fresh_noop up2 um qk2 mk2 ak now2 _ hfresh2]
      omega

/-- Witness for C3's amended theorem: a successful first refresh followed
    by a second one 100 seconds later. -/
theorem C3_witness :
    (1000 - sEmpty.last_cache_update < CACHE_DURATION →
      refresh_cache upstreamBtc false true mirrorAlwaysOk true 1000 sEmpty =
        ⟨true, sEmpty, 0, 0⟩) ∧
    (refresh_cache upstreamBtc false true mirrorAlwaysOk true 1000 sEmpty).fetchCalls +
      (refresh_cache upstreamBtc false true mirrorAlwaysOk true 1100
        (refresh_cache upstreamBtc false true mirrorAlwaysOk true 1000 sEmpty).state).fetchCalls ≤ 1 :=
  C3_fresh_noop_single_upstream_fetch upstreamBtc upstreamBtc false true true
    mirrorAlwaysOk mirrorAlwaysOk true 1000 1100 sEmpty (by decide) (by decide)
    (by decide)

/-- C4 counterexample: an upstream response containing only the untracked
    symbol FOO stores zero records, yet refresh_cache returns true and
    advances last_cache_update to now — the claim demands false and an
    unchanged last_cache_update. -/
theorem C4_counterexample :
    (refresh_cache upstreamFoo false true mirrorAlwaysOk true 1000 sEmpty).ok = true ∧
    (refresh_cache upstreamFoo false true mirrorAlwaysOk true 1000 sEmpty).state.crypto_cache = [] ∧
    (refresh_cache upstreamFoo false true mirrorAlwaysOk true 1000 sEmpty).state.last_cache_update = 1000 ∧
    ¬ (refresh_cache upstreamFoo false true mirrorAlwaysOk true 1000 sEmpty).state.last_cache_update =
        sEmpty.last_cache_update := by
  decide

/-- C4 (amended): on the live-fetch path refresh_cache returns true iff
    the fetch produced a processed result — possibly with zero stored
    records; whenever it does, last_cache_update is advanced to now
    unconditionally, and only a fetch that returns None leaves
    last_cache_update unchanged. -/
theorem C4_refresh_true_iff_fetch_produced_result (upstream : Nat → UpstreamResp)
    (qk : Bool) (mk : String → Bool) (now : Nat) (s : ServerState)
    (hstale : ¬ now - s.last_cache_update < CACHE_DURATION) :
    refresh_cache upstream false qk mk true now s =
      ⟨(fetch_crypto_data upstream false mk true now s).result.isSome,
       (fetch_crypto_data upstream false mk true now s).state,
       (fetch_crypto_data upstream false mk true now s).netCalls, 1⟩ ∧
    ((fetch_crypto_data upstream false mk true now s).result.isSome = true →
      (fetch_crypto_data upstream false mk true now s).state.last_cache_update = now) ∧
    ((fetch_crypto_data upstream false mk true now s).result = none →
      (fetch_crypto_data upstream false mk true now s).state.last_cache_update =
        s.last_cache_update) := by
  refine ⟨?_, fetch_some_last upstream false mk true now s,
    fetch_none_laststate upstream false mk true now s⟩
  exact refresh_stale_fetch upstream false qk mk true now s hstale (by simp)

/-- Witness for C4's amended theorem at a successful concrete fetch. -/
theorem C4_witness :
    refresh_cache upstreamBtc false true mirrorAlwaysOk true 2000 sEmpty =
      ⟨(fetch_crypto_data upstreamBtc false mirrorAlwaysOk true 2000 sEmpty).result.isSome,
       (fetch_crypto_data upstreamBtc false mirrorAlwaysOk true 2000 sEmpty).state,
       (fetch_crypto_data upstreamBtc false mirrorAlwaysOk true 2000 sEmpty).netCalls, 1⟩ ∧
    ((fetch_crypto_data upstreamBtc false mirrorAlwaysOk true 2000 sEmpty).result.isSome = true →
      (fetch_crypto_data upstreamBtc false mirrorAlwaysOk true 2000 sEmpty).state.last_cache_update = 2000) ∧
    ((fetch_crypto_data upstreamBtc false mirrorAlwaysOk true 2000 sEmpty).result = none →
      (fetch_crypto_data upstreamBtc false mirrorAlwaysOk true 2000 sEmpty).state.last_cache_update =
        sEmpty.last_cache_update) :=
  C4_refresh_true_iff_fetch_produced_result upstreamBtc true mirrorAlwaysOk
    2000 sEmpty (by decide)

/-- C5 counterexample: an upstream record whose quote carries the price
    key with a null value IS upserted into the store (with price
    defaulted to 0) — the claim says a null price is never upserted. -/
theorem C5_counterexample :
    (lookupAL (process_crypto_data false mirrorAlwaysOk 1000
        [("BTC", btcNullPrice)] sEmpty).2.crypto_cache "BTC").isSome = true ∧
    (lookupAL (process_crypto_data false mirrorAlwaysOk 1000
        [("BTC", btcNullPrice)] sEmpty).2.crypto_cache "BTC").map PriceRecord.price =
      some 0 := by
  decide

/-- C5 (amended): a raw record for a tracked symbol is stored iff its
    quote object is present and contains the price key at all; a present
    but null price does not drop the record — it is stored with price 0,
    exactly like the other optional numeric fields default to 0; only a
    missing quote or an absent price key drops the record. -/
theorem C5_record_stored_iff_price_key_present (um : Bool)
    (mk : String → Bool) (now : Nat) (symbol : String) (cd : CoinData)
    (s : ServerState) (hsym : symbol ∈ CRYPTO_SYMBOLS) :
    (cd.quote = none →
      process_crypto_data um mk now [(symbol, cd)] s =
        ([], { s with last_cache_update := now })) ∧
    (∀ q, cd.quote = some q → q.price = none →
      process_crypto_data um mk now [(symbol, cd)] s =
        ([], { s with last_cache_update := now })) ∧
    (∀ q j, cd.quote = some q → q.price = some j →
      (process_crypto_data um mk now [(symbol, cd)] s).1 = [mkRecord now symbol cd q] ∧
      lookupAL (process_crypto_data um mk now [(symbol, cd)] s).2.crypto_cache symbol =
        some (mkRecord now symbol cd q)) ∧
    (∀ q, (mkRecord now symbol cd q).price = numOrZero q.price ∧
      numOrZero (some JNum.null) = 0 ∧ numOrZero none = 0) := by
  refine ⟨?_, ?_, ?_, fun q => ⟨rfl, rfl, rfl⟩⟩
  · intro hq
    simp [process_crypto_data, processOne, hsym, hq]
  · intro q hq hp
    simp [process_crypto_data, processOne, hsym, hq, hp]
  · intro q j hq hp
    by_cases hm : um = true ∧ mk symbol = true
    · constructor <;>
        simp [process_crypto_data, processOne, hsym, hq, hp, hm, lookupAL_upsertAL_self]
    · constructor <;>
        simp [process_crypto_data, processOne, hsym, hq, hp, hm, lookupAL_upsertAL_self]

/-- Witness for C5's amended theorem: the null-price BTC record is stored
    with price 0. -/
theorem C5_witness :
    (process_crypto_data false mirrorAlwaysOk 1000 [("BTC", btcNullPrice)] sEmpty).1 =
      [mkRecord 1000 "BTC" btcNullPrice ⟨some .null, none, none, none⟩] ∧
    lookupAL (process_crypto_data false mirrorAlwaysOk 1000
        [("BTC", btcNullPrice)] sEmpty).2.crypto_cache "BTC" =
      some (mkRecord 1000 "BTC" btcNullPrice ⟨some .null, none, none, none⟩) :=
  (C5_record_stored_iff_price_key_present false mirrorAlwaysOk 1000 "BTC"
    btcNullPrice sEmpty (by decide)).2.2.1 ⟨some .null, none, none, none⟩
    .null rfl rfl

/-- C6: a failing durable-mirror write never blocks or rolls back the
    in-memory upsert: for every mirror outcome (the oracle mk is
    arbitrary, including the always-throwing mirror), after processing a
    valid record the in-memory cache contains it. -/
theorem C6_mirror_failure_never_blocks_memory (um : Bool)
    (mk : String → Bool) (now : Nat) (symbol : String) (cd : CoinData)
    (q : USDQuote) (j : JNum) (s : ServerState)
    (hsym : symbol ∈ CRYPTO_SYMBOLS) (hq : cd.quote = some q)
    (hp : q.price = some j) :
    lookupAL (process_crypto_data um mk now [(symbol, cd)] s).2.crypto_cache symbol =
      some (mkRecord now symbol cd q) := by
  by_cases hm : um = true ∧ mk symbol = true
  · simp [process_crypto_data, processOne, hsym, hq, hp, hm, lookupAL_upsertAL_self]
  · simp [process_crypto_data, processOne, hsym, hq, hp, hm, lookupAL_upsertAL_self]

/-- Witness for C6 with the always-throwing mirror enabled. -/
theorem C6_witness :
    lookupAL (process_crypto_data true mirrorAlwaysFails 1000
        [("BTC", btcGood)] sEmpty).2.crypto_cache "BTC" =
      some (mkRecord 1000 "BTC" btcGood ⟨some (.num 50000), none, none, none⟩) :=
  C6_mirror_failure_never_blocks_memory true mirrorAlwaysFails 1000 "BTC"
    btcGood ⟨some (.num 50000), none, none, none⟩ (.num 50000) sEmpty
    (by decide) rfl rfl

/-- C7 counterexample: with the store empty and no rate limit active, the
    collection endpoint answers 503 with an error body — not HTTP 200 with
    an empty array as one spec clause demands. -/
theorem C7_counterexample :
    getAllCrypto false true 1000 sEmpty =
      ⟨503, .error "No cryptocurrency data available"⟩ ∧
    ¬ (getAllCrypto false true 1000 sEmpty).status = 200 := by
  decide

/-- C7 (amended): the collection endpoint returns 200 with the recent
    MongoDB rows when there are any, else 200 with the memory-cache
    records when the cache is non-empty, else 429 with the remaining
    cooldown seconds when rate limited, else 503 with an error body —
    never 200 with an empty array. -/
theorem C7_get_all_crypto_response_cases (um qk : Bool) (now : Nat)
    (s : ServerState) :
    (um = true ∧ qk = true ∧
        s.mongo_current.filter (fun r => now - 1800 ≤ r.timestamp) ≠ [] →
      getAllCrypto um qk now s =
        ⟨200, .records (s.mongo_current.filter (fun r => now - 1800 ≤ r.timestamp))⟩) ∧
    (¬ (um = true ∧ qk = true ∧
        s.mongo_current.filter (fun r => now - 1800 ≤ r.timestamp) ≠ []) →
      s.crypto_cache ≠ [] →
      getAllCrypto um qk now s = ⟨200, .records (s.crypto_cache.map Prod.snd)⟩) ∧
    (¬ (um = true ∧ qk = true ∧
        s.mongo_current.filter (fun r => now - 1800 ≤ r.timestamp) ≠ []) →
      s.crypto_cache = [] → now < s.rate_limit_until →
      getAllCrypto um qk now s =
        ⟨429, .errorRetry "Rate limited by CoinMarketCap API" (s.rate_limit_until - now)⟩) ∧
    (¬ (um = true ∧ qk = true ∧
        s.mongo_current.filter (fun r => now - 1800 ≤ r.timestamp) ≠ []) →
      s.crypto_cache = [] → ¬ now < s.rate_limit_until →
      getAllCrypto um qk now s = ⟨503, .error "No cryptocurrency data available"⟩) := by
  refine ⟨?_, ?_, ?_, ?_⟩
  · intro h1
    unfold getAllCrypto
    simp only []
    rw [if_pos h1]
  · intro h1 h2
    unfold getAllCrypto
    simp only []
    rw [if_neg h1, if_pos h2]
  · intro h1 h2 h3
    unfold getAllCrypto
    simp only []
    rw [if_neg h1, if_neg (by simp [h2]), if_pos h3]
  · intro h1 h2 h3
    unfold getAllCrypto
    simp only []
    rw [if_neg h1, if_neg (by simp [h2]), if_neg h3]

/-- Witness for C7 at the concrete empty, rate-limited state. -/
theorem C7_witness :
    getAllCrypto false true 1000 ⟨[], [], 0, 1500⟩ =
      ⟨429, .errorRetry "Rate limited by CoinMarketCap API" 500⟩ :=
  (C7_get_all_crypto_response_cases false true 1000 ⟨[], [], 0, 1500⟩).2.2.1
    (by decide) rfl (by decide)

/-- C8 counterexample: a tracked symbol absent from both tiers is
    answered 404 DataUnavailable even while the rate-limit cooldown is
    active (rate_limit_until = 2000 here) — never the RateLimited error
    with seconds remaining that the claim demands. -/
theorem C8_counterexample :
    getSpecificCrypto false true "BTC" ⟨[], [], 0, 2000⟩ =
      ⟨404, .error "No data available for BTC"⟩ ∧
    ¬ (getSpecificCrypto false true "BTC" ⟨[], [], 0, 2000⟩).status = 429 := by
  decide

/-- C8 (amended): the single-symbol endpoint answers 404 UnknownSymbol
    for an untracked symbol and 404 DataUnavailable for a tracked symbol
    absent from both tiers; its response never depends on the rate-limit
    state at all. -/
theorem C8_specific_lookup_ignores_rate_limit (um qk : Bool)
    (crypto_symbol : String) (s : ServerState) :
    (pyUpper crypto_symbol ∉ CRYPTO_SYMBOLS →
      getSpecificCrypto um qk crypto_symbol s =
        ⟨404, .error ("Unknown cryptocurrency: " ++ pyUpper crypto_symbol)⟩) ∧
    (pyUpper crypto_symbol ∈ CRYPTO_SYMBOLS →
      (if um = true ∧ qk = true then
        s.mongo_current.find? (fun r => r.symbol = pyUpper crypto_symbol)
       else none) = none →
      lookupAL s.crypto_cache (pyUpper crypto_symbol) = none →
      getSpecificCrypto um qk crypto_symbol s =
        ⟨404, .error ("No data available for " ++ pyUpper crypto_symbol)⟩) ∧
    (∀ t, getSpecificCrypto um qk crypto_symbol { s with rate_limit_until := t } =
      getSpecificCrypto um qk crypto_symbol s) := by
  refine ⟨?_, ?_, fun t => rfl⟩
  · intro h1
    unfold getSpecificCrypto
    simp only []
    rw [if_neg h1]
  · intro h1 h2 h3
    unfold getSpecificCrypto
    simp only []
    rw [if_pos h1, h2, h3]

/-- Witness for C8: a lower-case tracked symbol, absent everywhere, with
    a nonzero cooldown in the state. -/
theorem C8_witness :
    getSpecificCrypto false true "btc" ⟨[], [], 0, 777⟩ =
      ⟨404, .error ("No data available for " ++ pyUpper "btc")⟩ :=
  (C8_specific_lookup_ignores_rate_limit false true "btc" ⟨[], [], 0, 777⟩).2.1
    (by decide) (by decide) rfl

/-- Witness for C9 at a concrete always-transient upstream. -/
theorem C9_witness :
    (fetch_crypto_data alwaysTransient false mirrorAlwaysOk true 1000 sEmpty).result = none ∧
    (fetch_crypto_data alwaysTransient false mirrorAlwaysOk true 1000 sEmpty).netCalls = RETRY_ATTEMPTS ∧
    (fetch_crypto_data alwaysTransient false mirrorAlwaysOk true 1000 sEmpty).sleeps =
      ((List.range RETRY_ATTEMPTS).drop 1).map backoff ∧
    (fetch_crypto_data alwaysTransient false mirrorAlwaysOk true 1000 sEmpty).sleeps.sum ≤
      RETRY_ATTEMPTS * MAX_BACKOFF_TIME :=
  C9_backoff_bound alwaysTransient false mirrorAlwaysOk 1000 sEmpty
    (by decide) (fun _ => rfl)

/-- C10: the tracked-symbols invariant — every memory-cache key and every
    mirror row's symbol lies in CRYPTO_SYMBOLS — is preserved by
    refresh_cache, hence by both write paths it dispatches to: the
    upstream-fetch processing path (which skips untracked symbols) and
    the durable-mirror restore path (which upserts rows whose symbols the
    invariant already constrains). -/
theorem C10_cache_keys_always_tracked (upstream : Nat → UpstreamResp)
    (um qk : Bool) (mk : String → Bool) (ak : Bool) (now : Nat)
    (s : ServerState) (h : trackedInv s) :
    trackedInv (refresh_cache upstream um qk mk ak now s).state := by
  by_cases h1 : now - s.last_cache_update < CACHE_DURATION
  · rw [refresh_fresh_noop upstream um qk mk ak now s h1]
    exact h
  · by_cases h2 : um = true ∧ (restore_from_mongodb um qk now s).1 = true
    · rw [refresh_restore_branch upstream um qk mk ak now s h1 h2]
      exact restore_trackedInv um qk now s h
    · rw [refresh_stale_fetch upstream um qk mk ak now s h1 h2]
      exact fetch_trackedInv upstream um mk ak now _ (restore_trackedInv um qk now s h)

/-- Witness for C10: a refresh from a concrete tracked-only state through
    the full mirror-enabled fetch path. -/
theorem C10_witness :
    trackedInv (refresh_cache upstreamBtc true true mirrorAlwaysOk true 5000
      ⟨[("ETH", mkRecord 10 "ETH" fooCoin ⟨some (.num 5), none, none, none⟩)],
       [], 0, 0⟩).state :=
  C10_cache_keys_always_tracked upstreamBtc true true mirrorAlwaysOk true 5000
    ⟨[("ETH", mkRecord 10 "ETH" fooCoin ⟨some (.num 5), none, none, none⟩)],
     [], 0, 0⟩ (by decide)

end CryptoServer
